import Mathlib

/-!
Verification of the Habit-Tracker calendar/completion engine.

The program is a React habit tracker; its core logic is a set of pure
functions over calendar dates and per-habit day records.  The repository
holds two variants of the component: `src/unnamed/part_000` (fixed
calendar-year grid window, with an insert branch in `toggleDay` and a
dense-calendar `getCurrentStreak`) and `src/components/habit-tracker.tsx`
(one-year-lookback grid window, map-only `toggleDay`, sparse-days
`getCurrentStreak`).  Both are embedded below; definitions carrying a `Tsx`
suffix come from `src/components/habit-tracker.tsx`, the unsuffixed ones
from `src/unnamed/part_000`.

Modelling decisions, uniform across the file:

* A calendar date is its day ordinal: the number of days since 0000-03-01
  in the proleptic Gregorian calendar (Howard Hinnant's civil-days scheme,
  which is exactly the arithmetic `Date` performs on year/month/day).
  The source normalizes every `Date` it compares with `setHours(...)` and
  renders dates as ISO `yyyy-mm-dd` strings; at this granularity a JS
  `Date` IS its calendar day, string equality (`===`) is ordinal equality,
  and `localeCompare` / lexicographic order on the zero-padded ISO strings
  is ordinal order.  The timezone is taken as UTC, the reference
  environment in which `toISOString().split('T')[0]` returns the wall-clock
  calendar day.
* The source's grid loops advance an iterator pinned to NOON
  (`setHours(12,0,0,0)`) and compare it against end bounds pinned to
  MIDNIGHT (`setHours(0,0,0,0)`); `noon(N) <= midnight(E)` holds iff
  `N < E`, so a loop `while (cur <= end)` visits the days
  `start, start+1, ..., end-1`.  The embedding's loops take the iteration
  count `end - start` as fuel, which is exactly that set of days.
* The `seenDates` duplicate-suppression set in the source only ever fires
  on local-timezone DST transitions; at calendar-day granularity each
  iteration produces a distinct date, so the set is the identity filter and
  is dropped from the embedding.
* React state updates (`setHabits(habits.map ...)`) are embedded as pure
  functions from the old value to the new one.
-/

namespace HabitTracker

/-! ## Calendar arithmetic -/

/-- Day ordinal of the civil date `y-m-d`: days since 0000-03-01
(Howard Hinnant's `days_from_civil`, specialised to `Nat`). -/
def daysFromCivil (y m d : Nat) : Nat :=
  let y' := if m ≤ 2 then y - 1 else y
  let era := y' / 400
  let yoe := y' % 400
  let mp := (m + 9) % 12
  let doy := (153 * mp + 2) / 5 + d - 1
  let doe := yoe * 365 + yoe / 4 - yoe / 100 + doy
  era * 146097 + doe

/-- Civil date `(y, m, d)` of a day ordinal (Hinnant's `civil_from_days`). -/
def civilFromDays (z : Nat) : Nat × Nat × Nat :=
  let era := z / 146097
  let doe := z % 146097
  let yoe := (doe - doe / 1460 + doe / 36524 - doe / 146096) / 365
  let y := yoe + era * 400
  let doy := doe - (365 * yoe + yoe / 4 - yoe / 100)
  let mp := (5 * doy + 2) / 153
  let d := doy - (153 * mp + 2) / 5 + 1
  let m := if mp < 10 then mp + 3 else mp - 9
  (if m ≤ 2 then y + 1 else y, m, d)

/-- `today.getFullYear()` for a day ordinal. -/
def yearOf (z : Nat) : Nat := (civilFromDays z).1

/-- JS `Date.prototype.getDay`: 0 = Sunday, ..., 6 = Saturday.
Anchored so that ordinal 739557 (2025-01-01) is a Wednesday (3). -/
def weekday (z : Nat) : Nat := (z + 3) % 7

/-- The source's week alignment: `d.setDate(d.getDate() - d.getDay())`,
the most recent Sunday on or before the given day. -/
def sundayOnOrBefore (z : Nat) : Nat := z - weekday z

/-- `new Date(currentYear, 0, 1)`: January 1 of a year. -/
def jan1Of (y : Nat) : Nat := daysFromCivil y 1 1

/-- `new Date(currentYear, 11, 31)`: December 31 of a year. -/
def dec31Of (y : Nat) : Nat := daysFromCivil y 12 31

/-- `oneYearAgo.setFullYear(today.getFullYear() - 1)` applied to a copy of
`today`: same month and day, previous year.  (On Feb 29 of a leap year this
rolls over to Mar 1 of the previous year, in JS and in `daysFromCivil`
alike, since both normalize the out-of-range day-of-month forward.) -/
def oneYearAgo (today : Nat) : Nat :=
  match civilFromDays today with
  | (y, m, d) => daysFromCivil (y - 1) m d

/-! ## Data model (`DayStatus`, `Habit`, `HabitData`) -/

/-- `interface DayStatus { date: string; completed: boolean }`. -/
structure DayStatus where
  date : Nat
  completed : Bool
deriving DecidableEq

/-- `interface Habit { id; name; dateCreated; dateStopped?; days }`. -/
structure Habit where
  id : String
  name : String
  dateCreated : Nat
  dateStopped : Option Nat
  days : List DayStatus
deriving DecidableEq

/-- `viewMode: 'list' | 'grid'`. -/
inductive ViewMode where
  | list
  | grid
deriving DecidableEq

/-- The component's persisted in-memory state: the `habits`,
`completedColor`, `showStreak` and `viewMode` `useState` cells.  `habits`
is an `Option` because the unvalidated import path can set it to the JS
`undefined` (`none`); every other path keeps it a real list. -/
structure AppState where
  habits : Option (List Habit)
  completedColor : String
  showStreak : List (String × Bool)
  viewMode : ViewMode
deriving DecidableEq

/-- A parsed import/export JSON document (`interface HabitData` with every
field read back as optional, since `JSON.parse` enforces none of them). -/
structure JsonDoc where
  habits : Option (List Habit)
  completedColor : Option String
  showStreak : Option (List (String × Bool))
  viewMode : Option ViewMode
deriving DecidableEq

/-- The initial `useState` values:
`useState<Habit[]>([])`, `useState("#18181b")`, `useState({})`,
`useState<'list' | 'grid'>('list')`. -/
def initialState : AppState :=
  { habits := some []
    completedColor := "#18181b"
    showStreak := []
    viewMode := ViewMode.list }

/-! ## Date/Week grid builder (`generateDates`) -/

/-- `isCompleted = checkDate >= rangeStart && checkDate <= rangeEnd` when a
range was supplied, `false` otherwise. -/
def inRange (range : Option (Nat × Nat)) (d : Nat) : Bool :=
  match range with
  | some (lo, hi) => decide (lo ≤ d) && decide (d ≤ hi)
  | none => false

/-- The grid loop body: starting at `current`, push `fuel` consecutive
`DayStatus` records.  The fuel is the loop's iteration count
`endBound - start` (see the noon/midnight note in the file header). -/
def gridLoopAux (range : Option (Nat × Nat)) : Nat → Nat → List DayStatus
  | 0, _ => []
  | fuel + 1, current =>
      { date := current, completed := inRange range current }
        :: gridLoopAux range fuel (current + 1)

/-- The `rangeStart`/`rangeEnd` computation:
if `stoppedDate <= today` then `(stoppedDate, today)` else
`(today, stoppedDate)`. -/
def clampRange (today : Nat) (habitEndDate : Option Nat) : Option (Nat × Nat) :=
  match habitEndDate with
  | some stopped => if stopped ≤ today then some (stopped, today) else some (today, stopped)
  | none => none

/-- `generateDates` of `src/unnamed/part_000` lines 144-213: fixed
calendar-year window.  Walks from the Sunday on or before January 1 of
`today`'s year while `currentDate <= dec31` (noon vs midnight: last day
generated is December 30).  The `habitStartDate` parameter of the source is
unused there and omitted here. -/
def generateDates (today : Nat) (habitEndDate : Option Nat) : List DayStatus :=
  gridLoopAux (clampRange today habitEndDate)
    (dec31Of (yearOf today) - sundayOnOrBefore (jan1Of (yearOf today)))
    (sundayOnOrBefore (jan1Of (yearOf today)))

/-- `generateDates` of `src/components/habit-tracker.tsx` lines 128-193:
one-year-lookback window.  Walks from the Sunday on or before one year ago
while `currentDate <= today` (noon vs midnight: last day generated is
yesterday). -/
def generateDatesTsx (today : Nat) (habitEndDate : Option Nat) : List DayStatus :=
  gridLoopAux (clampRange today habitEndDate)
    (today - sundayOnOrBefore (oneYearAgo today))
    (sundayOnOrBefore (oneYearAgo today))

/-- `generate2025Calendar` of `src/unnamed/part_000` lines 432-462: the
fixed 2025 display calendar, every day `completed := false`. -/
def generate2025Calendar : List DayStatus :=
  gridLoopAux none
    (dec31Of 2025 - sundayOnOrBefore (jan1Of 2025))
    (sundayOnOrBefore (jan1Of 2025))

/-! ## Mutations (`addHabit`, `toggleDay`, `saveCheckIn`, `resetHabit`) -/

/-- `[...].sort((a, b) => a.date.localeCompare(b.date))`: sort ascending by
date (on ISO strings `localeCompare` is the ordinal comparison). -/
def sortByDate (days : List DayStatus) : List DayStatus :=
  days.mergeSort (fun a b => decide (a.date ≤ b.date))

/-- `addHabit` of `src/unnamed/part_000` lines 215-232: reject a blank
name, otherwise append a habit whose grid `generateDates` builds.  `newId`
stands for `Date.now().toString()` and `today` for `new Date()`. -/
def addHabit (name newId : String) (today : Nat) (dateStopped : Option Nat)
    (habits : List Habit) : List Habit :=
  if name.trim = "" then habits
  else
    habits ++ [{ id := newId
                 name := name
                 dateCreated := today
                 dateStopped := dateStopped
                 days := generateDates today dateStopped }]

/-- `toggleDay` of `src/unnamed/part_000` lines 244-267: on the habit with
the given id, flip the record whose date matches, or insert
`{date, completed: true}` and re-sort when none does. -/
def toggleDay (habitId : String) (date : Nat) (habits : List Habit) : List Habit :=
  habits.map fun habit =>
    if habit.id = habitId then
      if habit.days.any (fun day => day.date == date) then
        { habit with
          days := habit.days.map fun day =>
            if day.date = date then { day with completed := !day.completed } else day }
      else
        { habit with days := sortByDate (habit.days ++ [{ date := date, completed := true }]) }
    else habit

/-- `toggleDay` of `src/components/habit-tracker.tsx` lines 224-236: only
maps over the existing records; a date with no record is left alone. -/
def toggleDayTsx (habitId : String) (date : Nat) (habits : List Habit) : List Habit :=
  habits.map fun habit =>
    if habit.id = habitId then
      { habit with
        days := habit.days.map fun day =>
          if day.date = date then { day with completed := !day.completed } else day }
    else habit

/-- `saveCheckIn` of `src/unnamed/part_000` lines 500-528: for each habit
with a non-null selection, set today's record to the selection, inserting
and re-sorting when today has no record yet. -/
def saveCheckIn (selections : String → Option Bool) (today : Nat)
    (habits : List Habit) : List Habit :=
  habits.map fun habit =>
    match selections habit.id with
    | none => habit
    | some sel =>
        if habit.days.any (fun day => day.date == today) then
          { habit with
            days := habit.days.map fun day =>
              if day.date = today then { day with completed := sel } else day }
        else
          { habit with days := sortByDate (habit.days ++ [{ date := today, completed := sel }]) }

/-- `resetHabit` of `src/unnamed/part_000` lines 1442-1452 (identical in
`src/components/habit-tracker.tsx` lines 1086-1096): set every record of
the habit with the given id to `completed := false`. -/
def resetHabit (habitId : String) (habits : List Habit) : List Habit :=
  habits.map fun habit =>
    if habit.id = habitId then
      { habit with days := habit.days.map fun day => { day with completed := false } }
    else habit

/-! ## Statistics engine -/

/-- `getCompletedDays`: records with `completed = true`. -/
def getCompletedDays (habit : Habit) : Nat :=
  (habit.days.filter fun day => day.completed).length

/-- The backward scan of `getCurrentStreak` in
`src/components/habit-tracker.tsx` lines 353-376, reading the list already
reversed (the source walks `habit.days` from the last index down):
`if (dayDate > today) continue; if (day.completed) streak++; else break`. -/
def streakLoop (today : Nat) : List DayStatus → Nat
  | [] => 0
  | day :: rest =>
      if today < day.date then streakLoop today rest
      else if day.completed then streakLoop today rest + 1
      else 0

/-- `getCurrentStreak` of `src/components/habit-tracker.tsx` lines 353-376:
scan the habit's own (sparse) days from latest to earliest. -/
def getCurrentStreakTsx (today : Nat) (habit : Habit) : Nat :=
  streakLoop today habit.days.reverse

/-- The `completedDatesMap` lookup of `src/unnamed/part_000` lines 390-393
followed by `completedDatesMap.get(day.date) || false`: `Map.set` in
insertion order, so the LAST record with the date wins; a date with no
record reads `false`. -/
def lookupCompleted (days : List DayStatus) (d : Nat) : Bool :=
  match days.reverse.find? (fun day => day.date == d) with
  | some day => day.completed
  | none => false

/-- The backward dense scan of `getCurrentStreak` in
`src/unnamed/part_000` lines 404-414, reading the calendar already
reversed: `if (isCompleted) streak++; else break` with no skipping. -/
def streakDense (lookup : Nat → Bool) : List DayStatus → Nat
  | [] => 0
  | day :: rest => if lookup day.date then streakDense lookup rest + 1 else 0

/-- `getCurrentStreak` of `src/unnamed/part_000` lines 384-417: filter the
fixed 2025 calendar to days up to `today`, then count backward through that
DENSE calendar with `completedDatesMap.get(date) || false`. -/
def getCurrentStreak (today : Nat) (habit : Habit) : Nat :=
  streakDense (lookupCompleted habit.days)
    ((generate2025Calendar.filter fun day => decide (day.date ≤ today)).reverse)

/-- Modelled from the spec, section 4.3 (`currentStreak`), for comparison
with the two implementations: drop the days strictly after `today`, then
count the consecutive `completed = true` records from the latest remaining
one, stopping at the first incomplete record. -/
def currentStreakSpec (today : Nat) (habit : Habit) : Nat :=
  ((habit.days.filter fun day => decide (day.date ≤ today)).reverse.takeWhile
    fun day => day.completed).length

/-! ## Persistence (`saveToFile`, `loadFromFile`) -/

/-- `saveToFile` of `src/unnamed/part_000` lines 318-334: serialize the
four state cells; every field of the export is present. -/
def saveToFile (st : AppState) : JsonDoc :=
  { habits := st.habits
    completedColor := some st.completedColor
    showStreak := some st.showStreak
    viewMode := some st.viewMode }

/-- `loadFromFile` of `src/unnamed/part_000` lines 336-378 (identical state
logic in `src/components/habit-tracker.tsx` lines 305-347), as a function
from the parse outcome and the current state to the next state paired with
whether the error alert was shown.  `JSON.parse` failure is `none`; on
success the code runs `setHabits(data.habits)` UNVALIDATED and then
restores each preference only `if (data.field)` is truthy (for the color
string: present and nonempty; for the map and mode: present). -/
def loadFromFile (parsed : Option JsonDoc) (st : AppState) : AppState × Bool :=
  match parsed with
  | none => (st, true)
  | some data =>
      ({ habits := data.habits
         completedColor :=
           match data.completedColor with
           | some c => if c = "" then st.completedColor else c
           | none => st.completedColor
         showStreak :=
           match data.showStreak with
           | some s => s
           | none => st.showStreak
         viewMode :=
           match data.viewMode with
           | some v => v
           | none => st.viewMode }, false)

/-! ## The days-list invariant -/

/-- The Habit invariant of the data model: `days` is strictly ascending by
date (ascending and duplicate-free at once). -/
def DaysSorted (days : List DayStatus) : Prop :=
  days.Pairwise fun a b => a.date < b.date

/-- Every habit of the list satisfies `DaysSorted`. -/
def HabitsInv (habits : List Habit) : Prop :=
  ∀ h ∈ habits, DaysSorted h.days

/-! ## Lemmas about the grid loop -/

theorem gridLoopAux_date_ge (range : Option (Nat × Nat)) :
    ∀ fuel current, ∀ day ∈ gridLoopAux range fuel current, current ≤ day.date := by
  intro fuel
  induction fuel with
  | zero => intro current day h; simp [gridLoopAux] at h
  | succ n ih =>
      intro current day h
      simp only [gridLoopAux, List.mem_cons] at h
      rcases h with h | h
      · simp [h]
      · exact Nat.le_of_succ_le (ih (current + 1) day h)

theorem gridLoopAux_sorted (range : Option (Nat × Nat)) :
    ∀ fuel current, (gridLoopAux range fuel current).Pairwise fun a b => a.date < b.date := by
  intro fuel
  induction fuel with
  | zero => intro current; simp [gridLoopAux]
  | succ n ih =>
      intro current
      simp only [gridLoopAux]
      refine List.Pairwise.cons ?_ (ih (current + 1))
      intro day h
      exact Nat.lt_of_succ_le (gridLoopAux_date_ge range n (current + 1) day h)

theorem gridLoopAux_chain (range : Option (Nat × Nat)) :
    ∀ fuel current, List.Chain' (fun a b => b.date = a.date + 1) (gridLoopAux range fuel current) := by
  intro fuel
  induction fuel with
  | zero => intro current; simp [gridLoopAux]
  | succ n ih =>
      intro current
      cases n with
      | zero => simp [gridLoopAux]
      | succ m =>
          simp only [gridLoopAux] at *
          exact List.Chain'.cons rfl (ih (current + 1))

theorem gridLoopAux_head (range : Option (Nat × Nat)) (fuel current : Nat) (h : 0 < fuel) :
    (gridLoopAux range fuel current).head?.map (fun day => day.date) = some current := by
  cases fuel with
  | zero => omega
  | succ n => simp [gridLoopAux]

theorem gridLoopAux_completed (lo hi : Nat) :
    ∀ fuel current, ∀ day ∈ gridLoopAux (some (lo, hi)) fuel current,
      (day.completed = true ↔ lo ≤ day.date ∧ day.date ≤ hi) := by
  intro fuel
  induction fuel with
  | zero => intro current day h; simp [gridLoopAux] at h
  | succ n ih =>
      intro current day h
      simp only [gridLoopAux, List.mem_cons] at h
      rcases h with h | h
      · subst h; simp [inRange]
      · exact ih (current + 1) day h

/-! ## Calendar arithmetic lemmas -/

theorem jan1_lt_dec31 (y : Nat) (hy : 1 ≤ y) : jan1Of y < dec31Of y := by
  unfold jan1Of dec31Of daysFromCivil
  norm_num
  omega

theorem jan1_ge (y : Nat) : 306 ≤ jan1Of y := by
  unfold jan1Of daysFromCivil
  norm_num
  omega

theorem weekday_lt (z : Nat) : weekday z < 7 := by
  unfold weekday
  omega

theorem weekday_sundayOnOrBefore (z : Nat) (h : weekday z ≤ z) :
    weekday (sundayOnOrBefore z) = 0 := by
  simp only [weekday, sundayOnOrBefore] at h ⊢
  omega

/-! ## C1 — the grid is gap-free, duplicate-free, ascending, Sunday-aligned -/

/-- C1. For every grid window, the grid builder (`generateDates`, in both
its calendar-year variant from `src/unnamed/part_000` and its
one-year-lookback variant from `src/components/habit-tracker.tsx`) returns
a sequence of day records whose dates are strictly ascending with no
duplicates and no gaps (each consecutive date is one calendar day after the
previous), and whose first date is the Sunday on or before the window start
(January 1 of the current year, respectively one year before today).  The
hypotheses only rule out degenerate day ordinals below year 1 of the
calendar, where the source's `Date` arithmetic would go before the epoch of
the embedding. -/
theorem generateDates_grid (today : Nat) (stopOpt : Option Nat)
    (hy : 1 ≤ yearOf today)
    (hw : weekday (oneYearAgo today) ≤ oneYearAgo today)
    (ht : oneYearAgo today < today) :
    ((generateDates today stopOpt).Pairwise (fun a b => a.date < b.date) ∧
      List.Chain' (fun a b => b.date = a.date + 1) (generateDates today stopOpt) ∧
      (generateDates today stopOpt).head?.map (fun day => day.date) =
        some (sundayOnOrBefore (jan1Of (yearOf today))) ∧
      weekday (sundayOnOrBefore (jan1Of (yearOf today))) = 0 ∧
      sundayOnOrBefore (jan1Of (yearOf today)) ≤ jan1Of (yearOf today)) ∧
    ((generateDatesTsx today stopOpt).Pairwise (fun a b => a.date < b.date) ∧
      List.Chain' (fun a b => b.date = a.date + 1) (generateDatesTsx today stopOpt) ∧
      (generateDatesTsx today stopOpt).head?.map (fun day => day.date) =
        some (sundayOnOrBefore (oneYearAgo today)) ∧
      weekday (sundayOnOrBefore (oneYearAgo today)) = 0 ∧
      sundayOnOrBefore (oneYearAgo today) ≤ oneYearAgo today) := by
  have hj : 306 ≤ jan1Of (yearOf today) := jan1_ge (yearOf today)
  have hwj : weekday (jan1Of (yearOf today)) ≤ jan1Of (yearOf today) :=
    le_trans (Nat.le_of_lt (weekday_lt _)) (le_trans (by norm_num) hj)
  have hjd : jan1Of (yearOf today) < dec31Of (yearOf today) := jan1_lt_dec31 _ hy
  have hsun : sundayOnOrBefore (jan1Of (yearOf today)) ≤ jan1Of (yearOf today) :=
    Nat.sub_le _ _
  have hsunT : sundayOnOrBefore (oneYearAgo today) ≤ oneYearAgo today :=
    Nat.sub_le _ _
  refine ⟨⟨gridLoopAux_sorted _ _ _, gridLoopAux_chain _ _ _, ?_,
      weekday_sundayOnOrBefore _ hwj, hsun⟩,
    gridLoopAux_sorted _ _ _, gridLoopAux_chain _ _ _, ?_,
      weekday_sundayOnOrBefore _ hw, hsunT⟩
  · exact gridLoopAux_head _ _ _ (by omega)
  · exact gridLoopAux_head _ _ _ (by omega)

/-- C1 witness: the grid properties at the concrete date 2025-06-15. -/
theorem generateDates_grid_witness :
    ((generateDates (daysFromCivil 2025 6 15) none).Pairwise (fun a b => a.date < b.date) ∧
      List.Chain' (fun a b => b.date = a.date + 1) (generateDates (daysFromCivil 2025 6 15) none) ∧
      (generateDates (daysFromCivil 2025 6 15) none).head?.map (fun day => day.date) =
        some (sundayOnOrBefore (jan1Of (yearOf (daysFromCivil 2025 6 15)))) ∧
      weekday (sundayOnOrBefore (jan1Of (yearOf (daysFromCivil 2025 6 15)))) = 0 ∧
      sundayOnOrBefore (jan1Of (yearOf (daysFromCivil 2025 6 15))) ≤
        jan1Of (yearOf (daysFromCivil 2025 6 15))) ∧
    ((generateDatesTsx (daysFromCivil 2025 6 15) none).Pairwise (fun a b => a.date < b.date) ∧
      List.Chain' (fun a b => b.date = a.date + 1) (generateDatesTsx (daysFromCivil 2025 6 15) none) ∧
      (generateDatesTsx (daysFromCivil 2025 6 15) none).head?.map (fun day => day.date) =
        some (sundayOnOrBefore (oneYearAgo (daysFromCivil 2025 6 15))) ∧
      weekday (sundayOnOrBefore (oneYearAgo (daysFromCivil 2025 6 15))) = 0 ∧
      sundayOnOrBefore (oneYearAgo (daysFromCivil 2025 6 15)) ≤
        oneYearAgo (daysFromCivil 2025 6 15)) :=
  generateDates_grid (daysFromCivil 2025 6 15) none (by decide) (by decide) (by decide)

/-! ## C2 — how the two `getCurrentStreak` variants scan -/

theorem streakLoop_eq (today : Nat) :
    ∀ l : List DayStatus,
      streakLoop today l =
        ((l.filter fun day => decide (day.date ≤ today)).takeWhile
          fun day => day.completed).length := by
  intro l
  induction l with
  | nil => simp [streakLoop]
  | cons day rest ih =>
      by_cases h : today < day.date
      · have h' : ¬ day.date ≤ today := by omega
        simp [streakLoop, h, h', ih]
      · have h' : day.date ≤ today := by omega
        by_cases hc : day.completed
        · simp [streakLoop, h, h', hc, List.takeWhile, ih]
        · simp [streakLoop, h, h', hc, List.takeWhile]

theorem streakDense_eq (lookup : Nat → Bool) :
    ∀ l : List DayStatus,
      streakDense lookup l = (l.takeWhile fun day => lookup day.date).length := by
  intro l
  induction l with
  | nil => simp [streakDense]
  | cons day rest ih =>
      by_cases h : lookup day.date
      · simp [streakDense, h, List.takeWhile, ih]
      · simp [streakDense, h, List.takeWhile]

/-- C2, amended.  The `getCurrentStreak` of
`src/components/habit-tracker.tsx` lines 353-376 is exactly the claimed
scan over the habit's own sparse `days` (drop dates after `today`, count
the trailing run of `completed = true`, stop at the first incomplete
record; in particular 0 for no days or an incomplete latest eligible day).
The `getCurrentStreak` of `src/unnamed/part_000` lines 384-417 instead
counts the trailing run of the DENSE fixed-2025 calendar restricted to
dates up to `today`, reading each calendar day through
`completedDatesMap.get(date) || false`, so a calendar day missing from
`habit.days` terminates the streak rather than being skipped. -/
theorem currentStreak_scan :
    (∀ today habit, getCurrentStreakTsx today habit = currentStreakSpec today habit) ∧
    (∀ today habit, getCurrentStreak today habit =
      ((generate2025Calendar.filter fun day => decide (day.date ≤ today)).reverse.takeWhile
        fun day => lookupCompleted habit.days day.date).length) := by
  constructor
  · intro today habit
    unfold getCurrentStreakTsx currentStreakSpec
    rw [streakLoop_eq, ← List.filter_reverse]
  · intro today habit
    unfold getCurrentStreak
    rw [streakDense_eq]

/-- C2 witness: the scan equalities at 2025-06-15 for a one-day habit. -/
theorem currentStreak_scan_witness :
    getCurrentStreakTsx (daysFromCivil 2025 6 15)
      { id := "1", name := "run", dateCreated := daysFromCivil 2025 6 14,
        dateStopped := none,
        days := [{ date := daysFromCivil 2025 6 14, completed := true }] } =
    currentStreakSpec (daysFromCivil 2025 6 15)
      { id := "1", name := "run", dateCreated := daysFromCivil 2025 6 14,
        dateStopped := none,
        days := [{ date := daysFromCivil 2025 6 14, completed := true }] } :=
  currentStreak_scan.1 (daysFromCivil 2025 6 15)
    { id := "1", name := "run", dateCreated := daysFromCivil 2025 6 14,
      dateStopped := none,
      days := [{ date := daysFromCivil 2025 6 14, completed := true }] }

/-- C2 counterexample: a habit whose only record is a completed
2025-06-14, evaluated on 2025-06-15.  The claimed scan of the habit's days
(the most recent eligible day is 2025-06-14 and it is completed) yields a
streak of 1, but `getCurrentStreak` of `src/unnamed/part_000` returns 0:
its dense calendar walk starts at 2025-06-15, which has no record, and that
immediately breaks the streak instead of being skipped. -/
theorem getCurrentStreak_dense_cex :
    getCurrentStreak (daysFromCivil 2025 6 15)
      { id := "1", name := "run", dateCreated := daysFromCivil 2025 6 14,
        dateStopped := none,
        days := [{ date := daysFromCivil 2025 6 14, completed := true }] } = 0 ∧
    currentStreakSpec (daysFromCivil 2025 6 15)
      { id := "1", name := "run", dateCreated := daysFromCivil 2025 6 14,
        dateStopped := none,
        days := [{ date := daysFromCivil 2025 6 14, completed := true }] } = 1 := by
  constructor <;> decide

/-! ## C4 — the active range marks exactly the clamped stop/today interval -/

theorem clampRange_eq_minmax (today s : Nat) :
    clampRange today (some s) = some (min s today, max s today) := by
  by_cases h : s ≤ today
  · simp [clampRange, h, min_eq_left h, max_eq_right h]
  · have h' : today ≤ s := by omega
    simp [clampRange, h, min_eq_right h', max_eq_left h']

/-- C4. When a stop date is supplied, a generated day is marked
`completed = true` exactly when its date lies in the inclusive interval
from `min stopDate today` to `max stopDate today`; every other generated
day is `completed = false`.  Holds for both `generateDates` variants. -/
theorem generateDates_activeRange (today s : Nat) :
    (∀ day ∈ generateDates today (some s),
      (day.completed = true ↔ min s today ≤ day.date ∧ day.date ≤ max s today)) ∧
    (∀ day ∈ generateDatesTsx today (some s),
      (day.completed = true ↔ min s today ≤ day.date ∧ day.date ≤ max s today)) := by
  constructor
  · intro day h
    unfold generateDates at h
    rw [clampRange_eq_minmax] at h
    exact gridLoopAux_completed _ _ _ _ day h
  · intro day h
    unfold generateDatesTsx at h
    rw [clampRange_eq_minmax] at h
    exact gridLoopAux_completed _ _ _ _ day h

/-- C4 witness: 2025-06-12 lies in the range of a habit stopped 2025-06-10
evaluated on 2025-06-15, and its generated record is completed. -/
theorem generateDates_activeRange_witness :
    ((⟨daysFromCivil 2025 6 12, true⟩ : DayStatus).completed = true ↔
      min (daysFromCivil 2025 6 10) (daysFromCivil 2025 6 15) ≤
        (⟨daysFromCivil 2025 6 12, true⟩ : DayStatus).date ∧
      (⟨daysFromCivil 2025 6 12, true⟩ : DayStatus).date ≤
        max (daysFromCivil 2025 6 10) (daysFromCivil 2025 6 15)) :=
  (generateDates_activeRange (daysFromCivil 2025 6 15) (daysFromCivil 2025 6 10)).1
    ⟨daysFromCivil 2025 6 12, true⟩ (by decide)

/-! ## Sortedness helpers -/

theorem forall₂_map_self {α : Type} (R : α → α → Prop) (f : α → α) :
    ∀ l : List α, (∀ a ∈ l, R a (f a)) → List.Forall₂ R l (l.map f)
  | [], _ => List.Forall₂.nil
  | a :: l, h =>
      List.Forall₂.cons (h a (by simp))
        (forall₂_map_self R f l fun x hx => h x (by simp [hx]))

theorem sortByDate_perm (days : List DayStatus) : (sortByDate days).Perm days :=
  List.mergeSort_perm days _

theorem sortByDate_sorted_le (days : List DayStatus) :
    (sortByDate days).Pairwise fun a b => a.date ≤ b.date := by
  have h : (days.mergeSort fun a b => decide (a.date ≤ b.date)).Pairwise
      (fun a b => (decide (a.date ≤ b.date) : Bool) = true) := by
    apply List.sorted_mergeSort
    · intro a b c hab hbc
      simp only [decide_eq_true_eq] at *
      omega
    · intro a b
      simp only [Bool.or_eq_true, decide_eq_true_eq]
      omega
  exact h.imp fun hab => by simpa using hab

theorem pairwise_lt_of_le_nodup (l : List DayStatus)
    (hle : l.Pairwise fun a b => a.date ≤ b.date)
    (hnd : (l.map fun day => day.date).Nodup) : DaysSorted l := by
  unfold DaysSorted
  rw [List.Nodup, List.pairwise_map] at hnd
  exact (hle.and hnd).imp fun hab => lt_of_le_of_ne hab.1 hab.2

theorem daysSorted_nodup_dates (l : List DayStatus) (h : DaysSorted l) :
    (l.map fun day => day.date).Nodup := by
  rw [List.Nodup, List.pairwise_map]
  exact h.imp fun hab => Nat.ne_of_lt hab

theorem daysSorted_insert_sort (l : List DayStatus) (x : DayStatus)
    (h : DaysSorted l) (hx : ∀ day ∈ l, day.date ≠ x.date) :
    DaysSorted (sortByDate (l ++ [x])) := by
  apply pairwise_lt_of_le_nodup _ (sortByDate_sorted_le _)
  have hperm : ((sortByDate (l ++ [x])).map fun day => day.date).Perm
      ((l ++ [x]).map fun day => day.date) := (sortByDate_perm _).map _
  rw [hperm.nodup_iff]
  rw [List.map_append]
  simp only [List.map_cons, List.map_nil]
  rw [List.nodup_append]
  refine ⟨daysSorted_nodup_dates l h, by simp, ?_⟩
  intro a ha
  simp only [List.mem_map] at ha
  obtain ⟨day, hmem, rfl⟩ := ha
  simp [hx day hmem]

theorem daysSorted_map (f : DayStatus → DayStatus)
    (hf : ∀ day, (f day).date = day.date) (l : List DayStatus)
    (h : DaysSorted l) : DaysSorted (l.map f) := by
  unfold DaysSorted at *
  rw [List.pairwise_map]
  exact h.imp fun hab => by rw [hf, hf]; exact hab

/-! ## C5 — every mutation preserves the sorted/duplicate-free invariant -/

/-- C5.  The days-list invariant (strictly ascending by date, hence
duplicate-free) holds of every freshly generated grid and is preserved by
each mutating operation: adding a habit, toggling a day, saving a check-in
and resetting a habit. -/
theorem invariant_preserved :
    (∀ name newId today stopOpt habits, HabitsInv habits →
        HabitsInv (addHabit name newId today stopOpt habits)) ∧
    (∀ habitId date habits, HabitsInv habits →
        HabitsInv (toggleDay habitId date habits)) ∧
    (∀ selections today habits, HabitsInv habits →
        HabitsInv (saveCheckIn selections today habits)) ∧
    (∀ habitId habits, HabitsInv habits → HabitsInv (resetHabit habitId habits)) := by
  refine ⟨?_, ?_, ?_, ?_⟩
  · intro name newId today stopOpt habits hinv h hmem
    unfold addHabit at hmem
    split at hmem
    · exact hinv h hmem
    · rw [List.mem_append] at hmem
      rcases hmem with hmem | hmem
      · exact hinv h hmem
      · rw [List.mem_singleton] at hmem
        subst hmem
        exact gridLoopAux_sorted _ _ _
  · intro habitId date habits hinv h hmem
    unfold toggleDay at hmem
    rw [List.mem_map] at hmem
    obtain ⟨h0, hmem0, rfl⟩ := hmem
    by_cases hid : h0.id = habitId
    · rw [if_pos hid]
      by_cases hany : h0.days.any (fun day => day.date == date) = true
      · rw [if_pos hany]
        exact daysSorted_map
          (fun day => if day.date = date then { day with completed := !day.completed } else day)
          (fun day => by dsimp only; split <;> rfl) h0.days (hinv h0 hmem0)
      · rw [if_neg hany]
        refine daysSorted_insert_sort _ _ (hinv h0 hmem0) ?_
        intro day hd heq
        exact hany (List.any_eq_true.mpr ⟨day, hd, by simp [heq]⟩)
    · rw [if_neg hid]
      exact hinv h0 hmem0
  · intro selections today habits hinv h hmem
    unfold saveCheckIn at hmem
    rw [List.mem_map] at hmem
    obtain ⟨h0, hmem0, rfl⟩ := hmem
    cases hsel : selections h0.id with
    | none => exact hinv h0 hmem0
    | some sel =>
        dsimp only
        by_cases hany : h0.days.any (fun day => day.date == today) = true
        · rw [if_pos hany]
          exact daysSorted_map
            (fun day => if day.date = today then { day with completed := sel } else day)
            (fun day => by dsimp only; split <;> rfl) h0.days (hinv h0 hmem0)
        · rw [if_neg hany]
          refine daysSorted_insert_sort _ _ (hinv h0 hmem0) ?_
          intro day hd heq
          exact hany (List.any_eq_true.mpr ⟨day, hd, by simp [heq]⟩)
  · intro habitId habits hinv h hmem
    unfold resetHabit at hmem
    rw [List.mem_map] at hmem
    obtain ⟨h0, hmem0, rfl⟩ := hmem
    by_cases hid : h0.id = habitId
    · rw [if_pos hid]
      exact daysSorted_map (fun day => { day with completed := false })
        (fun day => rfl) h0.days (hinv h0 hmem0)
    · rw [if_neg hid]
      exact hinv h0 hmem0

/-- C5 witness: toggling a fresh date on a concrete one-day habit keeps
the invariant. -/
theorem invariant_preserved_witness :
    HabitsInv (toggleDay "1" (daysFromCivil 2025 6 15)
      [{ id := "1", name := "run", dateCreated := 0, dateStopped := none,
         days := [{ date := daysFromCivil 2025 6 14, completed := true }] }]) :=
  invariant_preserved.2.1 "1" (daysFromCivil 2025 6 15)
    [{ id := "1", name := "run", dateCreated := 0, dateStopped := none,
       days := [{ date := daysFromCivil 2025 6 14, completed := true }] }]
    (by
      intro h hm
      rw [List.mem_singleton] at hm
      subst hm
      unfold DaysSorted
      simp)

/-! ## C3 — toggleDay is a targeted replace (insert branch only in part_000) -/

/-- C3, amended.  The `toggleDay` of `src/unnamed/part_000` lines 244-267
performs the claimed targeted replace on the habit with the given id: when
a record with the date exists, exactly that record's `completed` flag is
flipped (all dates and all other records unchanged); when none exists, a
record `{date, completed: true}` is inserted and the resulting list is a
permutation of the old records plus the new one, sorted ascending by date.
Other habits are untouched.  The `toggleDay` cited at
`src/components/habit-tracker.tsx` lines 224-236, however, has no insert
branch: it never changes the list of dates present, so toggling a date with
no record is a no-op there. -/
theorem toggleDay_targeted :
    (∀ habitId date habits,
      List.Forall₂ (fun h h' =>
        h'.id = h.id ∧ h'.name = h.name ∧ h'.dateCreated = h.dateCreated ∧
        h'.dateStopped = h.dateStopped ∧
        ((h.id = habitId ∧ ∃ day ∈ h.days, day.date = date) →
          List.Forall₂ (fun day day' =>
            day'.date = day.date ∧
            day'.completed = (if day.date = date then !day.completed else day.completed))
            h.days h'.days) ∧
        ((h.id = habitId ∧ ∀ day ∈ h.days, day.date ≠ date) →
          h'.days.Perm ({ date := date, completed := true } :: h.days) ∧
          h'.days.Pairwise (fun a b => a.date ≤ b.date)) ∧
        (h.id ≠ habitId → h' = h))
      habits (toggleDay habitId date habits)) ∧
    (∀ habitId date habits,
      List.Forall₂
        (fun h h' => h'.days.map (fun day => day.date) = h.days.map (fun day => day.date))
        habits (toggleDayTsx habitId date habits)) := by
  constructor
  · intro habitId date habits
    unfold toggleDay
    apply forall₂_map_self
    intro h hmem
    dsimp only
    by_cases hid : h.id = habitId
    · rw [if_pos hid]
      by_cases hany : h.days.any (fun day => day.date == date) = true
      · rw [if_pos hany]
        refine ⟨rfl, rfl, rfl, rfl, ?_, ?_, fun hne => absurd hid hne⟩
        · intro _
          apply forall₂_map_self
          intro day _
          constructor
          · dsimp only
            split <;> rfl
          · dsimp only
            split <;> rfl
        · rintro ⟨-, hall⟩
          rw [List.any_eq_true] at hany
          obtain ⟨day, hdm, hdd⟩ := hany
          rw [beq_iff_eq] at hdd
          exact absurd hdd (hall day hdm)
      · rw [if_neg hany]
        refine ⟨rfl, rfl, rfl, rfl, ?_, ?_, fun hne => absurd hid hne⟩
        · rintro ⟨-, day, hdm, hdd⟩
          exact absurd (List.any_eq_true.mpr ⟨day, hdm, by simp [hdd]⟩) hany
        · intro _
          exact ⟨(sortByDate_perm _).trans (List.perm_append_singleton _ _),
            sortByDate_sorted_le _⟩
    · rw [if_neg hid]
      refine ⟨rfl, rfl, rfl, rfl, ?_, ?_, fun _ => rfl⟩
      · rintro ⟨h1, -⟩
        exact absurd h1 hid
      · rintro ⟨h1, -⟩
        exact absurd h1 hid
  · intro habitId date habits
    unfold toggleDayTsx
    apply forall₂_map_self
    intro h hmem
    dsimp only
    by_cases hid : h.id = habitId
    · rw [if_pos hid]
      dsimp only
      rw [List.map_map]
      apply List.map_congr_left
      intro day _
      dsimp only [Function.comp]
      split <;> rfl
    · rw [if_neg hid]

/-- C3 counterexample: on a habit with no day records, the `toggleDay` of
`src/components/habit-tracker.tsx` lines 224-236 leaves the habit exactly
as it was — no record `{date: d, completed: true}` is inserted, contrary
to the claim's insert-and-sort case. -/
theorem toggleDayTsx_no_insert_cex :
    toggleDayTsx "1" 5
      [{ id := "1", name := "run", dateCreated := 0, dateStopped := none, days := [] }] =
      [{ id := "1", name := "run", dateCreated := 0, dateStopped := none, days := [] }] ∧
    ((toggleDayTsx "1" 5
      [{ id := "1", name := "run", dateCreated := 0, dateStopped := none, days := [] }]).all
        fun h => h.days.all fun day => !(day.date == 5)) = true := by
  constructor
  · decide
  · decide

/-! ## C9 — resetHabit clears completion flags and nothing else -/

/-- C9.  `resetHabit` sets `completed := false` on every record of the
habit with the given id, preserves that habit's dates (in order) and its
other fields, and leaves every habit with a different id unchanged. -/
theorem resetHabit_frame (habitId : String) (habits : List Habit) :
    List.Forall₂ (fun h h' =>
      (h.id ≠ habitId → h' = h) ∧
      (h.id = habitId →
        h'.id = h.id ∧ h'.name = h.name ∧ h'.dateCreated = h.dateCreated ∧
        h'.dateStopped = h.dateStopped ∧
        List.Forall₂ (fun day day' => day'.date = day.date ∧ day'.completed = false)
          h.days h'.days))
      habits (resetHabit habitId habits) := by
  unfold resetHabit
  apply forall₂_map_self
  intro h hmem
  dsimp only
  by_cases hid : h.id = habitId
  · rw [if_pos hid]
    refine ⟨fun hne => absurd hid hne, fun _ => ⟨rfl, rfl, rfl, rfl, ?_⟩⟩
    apply forall₂_map_self
    intro day _
    exact ⟨rfl, rfl⟩
  · rw [if_neg hid]
    exact ⟨fun _ => rfl, fun heq => absurd heq hid⟩

/-! ## C10 — toggling an existing date twice is the identity -/

/-- C10.  When every habit carrying the toggled id has a record with the
toggled date (in particular, when the habit with that id exists and
contains the date), applying `toggleDay` twice returns the original habit
list: the flip branch is taken both times and double negation cancels. -/
theorem toggleDay_involution (habitId : String) (date : Nat) (habits : List Habit)
    (h : ∀ hb ∈ habits, hb.id = habitId → ∃ day ∈ hb.days, day.date = date) :
    toggleDay habitId date (toggleDay habitId date habits) = habits := by
  unfold toggleDay
  rw [List.map_map]
  conv_rhs => rw [← List.map_id habits]
  apply List.map_congr_left
  intro hb hmem
  dsimp only [Function.comp, id]
  by_cases hid : hb.id = habitId
  · obtain ⟨day, hdm, hdd⟩ := h hb hmem hid
    have hany : hb.days.any (fun d0 => d0.date == date) = true :=
      List.any_eq_true.mpr ⟨day, hdm, by simp [hdd]⟩
    rw [if_pos hid, if_pos hany]
    have hany2 : ((hb.days.map fun d0 =>
        if d0.date = date then { d0 with completed := !d0.completed } else d0).any
          fun d0 => d0.date == date) = true := by
      refine List.any_eq_true.mpr
        ⟨if day.date = date then { day with completed := !day.completed } else day,
          List.mem_map_of_mem _ hdm, ?_⟩
      rw [if_pos hdd]
      simp [hdd]
    rw [if_pos hid, if_pos hany2]
    rw [List.map_map]
    have hdays : (hb.days.map ((fun d0 =>
        if d0.date = date then { d0 with completed := !d0.completed } else d0) ∘ fun d0 =>
        if d0.date = date then { d0 with completed := !d0.completed } else d0)) = hb.days := by
      conv_rhs => rw [← List.map_id hb.days]
      apply List.map_congr_left
      intro d0 _
      dsimp only [Function.comp, id]
      by_cases hd0 : d0.date = date
      · rw [if_pos hd0]
        rw [if_pos (show ({ d0 with completed := !d0.completed } : DayStatus).date = date from hd0)]
        simp
      · rw [if_neg hd0, if_neg hd0]
    rw [hdays]
  · rw [if_neg hid, if_neg hid]

/-- C10 witness: toggling 2025-06-14 twice on a concrete habit that has a
record for it returns the original list. -/
theorem toggleDay_involution_witness :
    toggleDay "1" (daysFromCivil 2025 6 14)
      (toggleDay "1" (daysFromCivil 2025 6 14)
        [{ id := "1", name := "run", dateCreated := 0, dateStopped := none,
           days := [{ date := daysFromCivil 2025 6 14, completed := true }] }]) =
      [{ id := "1", name := "run", dateCreated := 0, dateStopped := none,
         days := [{ date := daysFromCivil 2025 6 14, completed := true }] }] :=
  toggleDay_involution "1" (daysFromCivil 2025 6 14)
    [{ id := "1", name := "run", dateCreated := 0, dateStopped := none,
       days := [{ date := daysFromCivil 2025 6 14, completed := true }] }]
    (by decide)

/-! ## C6 — what loadFromFile does on malformed input -/

/-- C6, amended.  When the imported file is not valid JSON
(`JSON.parse` throws), `loadFromFile` surfaces the recoverable error alert
and leaves the whole in-memory state unchanged.  But a well-formed JSON
object with no `habits` field is NOT rejected: the code assigns
`data.habits` to the habits state without validation (making it the JS
`undefined`, `none` here), raises no error, and leaves only the preference
cells at their previous values. -/
theorem loadFromFile_malformed :
    (∀ st, loadFromFile none st = (st, true)) ∧
    (∀ st doc, doc.habits = none →
      (loadFromFile (some doc) st).2 = false ∧
      (loadFromFile (some doc) st).1.habits = none) := by
  constructor
  · intro st
    rfl
  · intro st doc hd
    exact ⟨rfl, by simp [loadFromFile, hd]⟩

/-- C6 witness: importing the document parsed from `"{}"` into the fresh
state raises no error and clobbers the habits cell. -/
theorem loadFromFile_malformed_witness :
    (loadFromFile
      (some { habits := none, completedColor := none, showStreak := none, viewMode := none })
      initialState).2 = false ∧
    (loadFromFile
      (some { habits := none, completedColor := none, showStreak := none, viewMode := none })
      initialState).1.habits = none :=
  loadFromFile_malformed.2 initialState
    { habits := none, completedColor := none, showStreak := none, viewMode := none } rfl

/-- C6 counterexample: importing the valid JSON object `{}` (no `habits`
field) into the fresh state changes the in-memory state (habits becomes
the undefined value) and reports no error, contrary to the claim that a
missing `habits` field surfaces a recoverable error and leaves the state
unchanged. -/
theorem loadFromFile_missing_habits_cex :
    loadFromFile
      (some { habits := none, completedColor := none, showStreak := none, viewMode := none })
      initialState =
      ({ habits := none, completedColor := "#18181b", showStreak := [],
         viewMode := ViewMode.list }, false) ∧
    ({ habits := none, completedColor := "#18181b", showStreak := [],
       viewMode := ViewMode.list } : AppState) ≠ initialState := by
  constructor
  · rfl
  · decide

/-! ## C7 — importing a document with the optional fields omitted -/

/-- C7, amended.  Importing a document whose `completedColor`,
`showStreak` and `viewMode` are omitted sets `habits` to exactly the
imported array and leaves each preference cell at its CURRENT in-memory
value (the code only overwrites a preference `if (data.field)` is
present); the spec's defaults `"#18181b"`, `{}` and `"list"` are obtained
only when the session still holds those values, as the fresh session does. -/
theorem loadFromFile_defaults :
    (∀ st doc hs, doc.habits = some hs → doc.completedColor = none →
      doc.showStreak = none → doc.viewMode = none →
      loadFromFile (some doc) st =
        ({ habits := some hs, completedColor := st.completedColor,
           showStreak := st.showStreak, viewMode := st.viewMode }, false)) ∧
    (∀ doc hs, doc.habits = some hs → doc.completedColor = none →
      doc.showStreak = none → doc.viewMode = none →
      loadFromFile (some doc) initialState =
        ({ habits := some hs, completedColor := "#18181b", showStreak := [],
           viewMode := ViewMode.list }, false)) := by
  constructor
  · intro st doc hs h1 h2 h3 h4
    simp [loadFromFile, h1, h2, h3, h4]
  · intro doc hs h1 h2 h3 h4
    simp [loadFromFile, initialState, h1, h2, h3, h4]

/-- C7 witness: importing `{"habits": []}` into the fresh session yields
the defaults with the empty habits array preserved. -/
theorem loadFromFile_defaults_witness :
    loadFromFile
      (some { habits := some [], completedColor := none, showStreak := none, viewMode := none })
      initialState =
      ({ habits := some [], completedColor := "#18181b", showStreak := [],
         viewMode := ViewMode.list }, false) :=
  loadFromFile_defaults.2
    { habits := some [], completedColor := none, showStreak := none, viewMode := none }
    [] rfl rfl rfl rfl

/-- C7 counterexample: importing `{"habits": []}` while the session's
color is `"#ff0000"` and its view mode is `grid` keeps those values — the
post-import state does not get `completedColor = "#18181b"` or
`viewMode = "list"` as the claim requires. -/
theorem loadFromFile_keeps_prefs_cex :
    (loadFromFile
      (some { habits := some [], completedColor := none, showStreak := none, viewMode := none })
      { habits := some [], completedColor := "#ff0000", showStreak := [("a", true)],
        viewMode := ViewMode.grid }).1.completedColor = "#ff0000" ∧
    (loadFromFile
      (some { habits := some [], completedColor := none, showStreak := none, viewMode := none })
      { habits := some [], completedColor := "#ff0000", showStreak := [("a", true)],
        viewMode := ViewMode.grid }).1.viewMode = ViewMode.grid ∧
    ("#ff0000" : String) ≠ "#18181b" := by
  refine ⟨rfl, rfl, by decide⟩

/-! ## C8 — export then import is the identity on the in-memory document -/

/-- C8.  Exporting the in-memory document with `saveToFile` (which always
writes all four fields) and importing the result with `loadFromFile`
reproduces the original state exactly and raises no error — in particular
for every document with all optional fields populated, as the claim
states. -/
theorem export_import_roundtrip (st : AppState) :
    loadFromFile (some (saveToFile st)) st = (st, false) := by
  have hcc : (if st.completedColor = "" then st.completedColor else st.completedColor)
      = st.completedColor := by split <;> rfl
  simp only [loadFromFile, saveToFile]
  rw [hcc]

end HabitTracker
